import Mathlib

/-!
Verification model of the Delagent meeting-negotiation engine.

Time is modelled in whole minutes since an epoch placed at a Monday 00:00
(concretely Monday 2025-01-06, so that day index 280 is Monday 2025-10-13,
281 is Tuesday 2025-10-14, 285 is Saturday 2025-10-18 and 294 is Monday
2025-10-27, the database end date).  All datetime arithmetic of the Python
sources (date, weekday, hour and minute extraction) becomes Euclidean
division and remainder on Int, which agrees with Python floor division.
Strings are modelled as lists of characters.
-/

set_option maxRecDepth 10000

namespace Delagent

def dayOf (t : Int) : Int := t / 1440

def weekdayOf (t : Int) : Int := (t / 1440) % 7

def hourOf (t : Int) : Int := (t % 1440) / 60

def minuteOf (t : Int) : Int := t % 60

/-- models.py CalendarBlockType. -/
inductive BlockKind
  | busy
  | focus_time
  | flexible
  | available
deriving DecidableEq

/-- The block_type value as stored in the database (models.py CalendarBlockType values). -/
def BlockKind.asChars : BlockKind → List Char
  | .busy => "busy".toList
  | .focus_time => "focus_time".toList
  | .flexible => "flexible".toList
  | .available => "available".toList

/-- A calendar block row as returned by database.py (title, interval, kind,
priority, moveability). -/
structure CalendarBlock where
  title : List Char
  start_time : Int
  end_time : Int
  block_type : BlockKind
  priority : Int
  is_moveable : Bool
deriving DecidableEq

/-- database.py CalendarService.check_time_conflict: all blocks of a user
with start_time < query end and end_time > query start, ordered by priority
descending (the SQL ORDER BY; modelled by a stable insertion sort — every
consumer in scope is insensitive to the order among equal priorities). -/
def check_time_conflict (cal : List CalendarBlock) (start_time end_time : Int) :
    List CalendarBlock :=
  List.insertionSort (fun a b => b.priority ≤ a.priority)
    (cal.filter (fun b => decide (b.start_time < end_time ∧ b.end_time > start_time)))

/-- Python str.lower, on the character-list model of strings. -/
def pyLower (s : List Char) : List Char := s.map Char.toLower

/-- Python substring test: sub in s. -/
def pyContains (sub s : List Char) : Bool := decide (sub <:+: s)

/-- api.py: the test for focus-type conflicts used in calculate_3agent_slot_quality,
namely the substring focus occurring in str(block_type).lower(). -/
def kindMentionsFocus (k : BlockKind) : Bool :=
  pyContains ("focus".toList) (pyLower k.asChars)

/-- Modelled from the spec (section 4.2 Conflict Classifier): a hard conflict for
a party with the given priority threshold is an overlapping focus_time block
with priority above the threshold, or an overlapping non-moveable busy block.
Stated from the spec's words in order to compare it with the filters the code
actually applies. -/
def specHardConflict (threshold : Int) (cal : List CalendarBlock)
    (start_time end_time : Int) : Bool :=
  cal.any (fun b => decide ((b.start_time < end_time ∧ b.end_time > start_time)
    ∧ ((b.block_type = .focus_time ∧ b.priority > threshold)
       ∨ (b.block_type = .busy ∧ b.is_moveable = false))))

/-- Conflict message emitted by both decision engines for a protected focus block. -/
def focusConflictMsg (title : List Char) : List Char :=
  "Conflicts with high-priority focus time: ".toList ++ title

/-- Conflict message emitted by both decision engines for a fixed busy block. -/
def fixedConflictMsg (title : List Char) : List Char :=
  "Conflicts with fixed meeting: ".toList ++ title

/-- Conflict message emitted by both decision engines for a flexible block. -/
def flexibleConflictMsg (title : List Char) : List Char :=
  "Conflicts with flexible block: ".toList ++ title

namespace Api

/-- api.py negotiate_with_ai_agent_api: the per-agent conflict test applied to
the result of check_time_conflict — a conflict disqualifies the slot iff it is
not moveable and its priority reaches the agent-specific bound
(7 for Pappu, 8 for Alice, 6 for Charlie). -/
def codeHasConflict (bound : Int) (conflicts : List CalendarBlock) : Bool :=
  conflicts.any (fun c => decide (c.is_moveable = false ∧ c.priority ≥ bound))

/-- Temporal-distance component of api.py calculate_slot_quality; the argument
is the absolute distance in minutes (the Python float hours comparison is exact
on quarter-hour multiples): 0 min gives 100, within 1h gives 80, within 2h
gives 60, within 4h gives 40, else 20. -/
def distanceScore (d : Int) : Int :=
  if d = 0 then 100
  else if d ≤ 60 then 80
  else if d ≤ 120 then 60
  else if d ≤ 240 then 40
  else 20

/-- Time-of-day bonus of api.py calculate_slot_quality (if/elif chain on slot_time.hour). -/
def timeOfDayBonus (h : Int) : Int :=
  if 9 ≤ h ∧ h ≤ 11 then 10
  else if 14 ≤ h ∧ h ≤ 16 then 8
  else if 8 ≤ h ∧ h ≤ 9 then 6
  else if 16 ≤ h ∧ h ≤ 17 then 4
  else 0

/-- Round-time bonus of api.py calculate_slot_quality. -/
def roundTimeBonus (m : Int) : Int :=
  if m = 0 then 5 else if m = 30 then 3 else 0

/-- api.py APINegotiation.calculate_slot_quality. -/
def calculate_slot_quality (slot_time preferred_time : Int) : Int :=
  distanceScore |slot_time - preferred_time| + timeOfDayBonus (hourOf slot_time)
    + roundTimeBonus (minuteOf slot_time)

/-- The agent-specific adjustment sum of api.py calculate_3agent_slot_quality. -/
def agentAdjustments (slot_time : Int)
    (pappu_conflicts alice_conflicts charlie_conflicts : List CalendarBlock) : Int :=
  (if pappu_conflicts ≠ [] then -5 else 0)
  + (if (9 ≤ hourOf slot_time ∧ hourOf slot_time ≤ 11)
        ∨ (14 ≤ hourOf slot_time ∧ hourOf slot_time ≤ 16) then 3 else 0)
  + (if alice_conflicts ≠ [] then -15 else 0)
  + (if hourOf slot_time = 10 ∨ hourOf slot_time = 11
        ∨ hourOf slot_time = 14 ∨ hourOf slot_time = 15 then 5 else 0)
  + (if alice_conflicts.any (fun c => kindMentionsFocus c.block_type) then -25 else 0)
  + (if charlie_conflicts ≠ [] then -8 else 0)
  + (if minuteOf slot_time = 0 then 8 else 0)
  + (if (9 ≤ hourOf slot_time ∧ hourOf slot_time ≤ 11)
        ∨ (14 ≤ hourOf slot_time ∧ hourOf slot_time ≤ 16) then 6 else 0)
  + (if 1 ≤ weekdayOf slot_time ∧ weekdayOf slot_time ≤ 3 then 4 else 0)

/-- api.py APINegotiation.calculate_3agent_slot_quality. -/
def calculate_3agent_slot_quality (slot_time preferred_time : Int)
    (pappu_conflicts alice_conflicts charlie_conflicts : List CalendarBlock) : Int :=
  max 0 (calculate_slot_quality slot_time preferred_time
    + agentAdjustments slot_time pappu_conflicts alice_conflicts charlie_conflicts)

/-- range(8, 17) of the api.py search loops. -/
def hoursList : List Int := [8, 9, 10, 11, 12, 13, 14, 15, 16]

/-- The quarter-hour minute offsets of the search loops. -/
def minutesList : List Int := [0, 15, 30, 45]

/-- One day of candidate start times in negotiate_with_ai_agent_api and
find_external_meeting_slots_api: quarter-hour slots from 08:00, keeping a slot
only if its end falls in an hour before 17. -/
def slotStartsOnDay (dur : Int) (d : Int) : List Int :=
  (hoursList.flatMap (fun h => minutesList.map (fun m => d * 1440 + h * 60 + m))).filter
    (fun s => decide (hourOf (s + dur) < 17))

/-- The Monday-to-Friday day indices visited by the api.py search loops. -/
def businessDays (startDay endDay : Int) : List Int :=
  ((List.range (endDay + 1 - startDay).toNat).map (fun (i : Nat) => startDay + (i : Int))).filter
    (fun d => decide (d % 7 < 5))

/-- Candidate start times enumerated by the api.py search loops for a horizon of
horizonDays days around the preferred time, clipped to the window from today
00:00 to the database end date 23:59. -/
def candidateStarts (horizonDays today0 dbEndDay : Int) (preferred dur : Int) :
    List Int :=
  let searchStart := max (preferred - horizonDays * 1440) (today0 * 1440)
  let searchEnd := min (preferred + horizonDays * 1440) (dbEndDay * 1440 + 1439)
  (businessDays (searchStart / 1440) (searchEnd / 1440)).flatMap (slotStartsOnDay dur)

/-- A candidate slot of the api.py searches. -/
structure Candidate where
  start_time : Int
  end_time : Int
  quality_score : Int
deriving DecidableEq

/-- Python list.sort(key=quality_score, reverse=True) is stable; modelled by a
stable insertion sort on the reversed comparison, which yields the same list. -/
def rankByQuality (l : List Candidate) : List Candidate :=
  List.insertionSort (fun a b => b.quality_score ≤ a.quality_score) l

/-- api.py APINegotiation.negotiate_with_ai_agent_api: enumerate candidates over
a 5-day horizon, drop any slot where some agent's per-agent conflict test
fires, score survivors with calculate_3agent_slot_quality, sort descending and
return the top 3. -/
def negotiate_with_ai_agent (pappu alice charlie : List CalendarBlock)
    (today0 dbEndDay : Int) (preferred dur : Int) : List Candidate :=
  let survivors := (candidateStarts 5 today0 dbEndDay preferred dur).filter (fun s =>
    decide (codeHasConflict 7 (check_time_conflict pappu s (s + dur)) = false
      ∧ codeHasConflict 8 (check_time_conflict alice s (s + dur)) = false
      ∧ codeHasConflict 6 (check_time_conflict charlie s (s + dur)) = false))
  let slots := survivors.map (fun s =>
    { start_time := s, end_time := s + dur,
      quality_score := calculate_3agent_slot_quality s preferred
        (check_time_conflict pappu s (s + dur)) (check_time_conflict alice s (s + dur))
        (check_time_conflict charlie s (s + dur)) : Candidate })
  (rankByQuality slots).take 3

/-- api.py APINegotiation.find_external_meeting_slots_api: 3-day horizon, only
Pappu's calendar, a slot survives only with no overlapping block at all. -/
def find_external_meeting_slots (pappu : List CalendarBlock)
    (today0 dbEndDay : Int) (preferred dur : Int) : List Candidate :=
  let survivors := (candidateStarts 3 today0 dbEndDay preferred dur).filter (fun s =>
    decide (check_time_conflict pappu s (s + dur) = []))
  let slots := survivors.map (fun s =>
    { start_time := s, end_time := s + dur,
      quality_score := calculate_slot_quality s preferred : Candidate })
  (rankByQuality slots).take 3

/-- A meeting request after date and time parsing (api.py MeetingRequest with
preferred_date as a day index and preferred_time as hour and minute). -/
structure MeetingReq where
  preferred_day : Int
  hour : Int
  minute : Int
  duration_minutes : Int
  is_ai_agent_meeting : Bool

/-- Python weekday names, Monday first (strftime with the day-name format). -/
def weekdayNames : List (List Char) :=
  ["Monday".toList, "Tuesday".toList, "Wednesday".toList, "Thursday".toList,
   "Friday".toList, "Saturday".toList, "Sunday".toList]

def dayName (d : Int) : List Char := weekdayNames.getD (d % 7).toNat []

/-- The discrete allowed duration set of api.py validate_input. -/
def allowedDurations : List Int := [15, 30, 45, 60, 90, 120]

/-- api.py APINegotiation.validate_input.  The formatted today date inside the
past-date message is elided; the message texts are otherwise those of the
source. -/
def validate_input (today0 dbEndDay : Int) (r : MeetingReq) : Except (List Char) Unit :=
  if (r.preferred_day % 7) ≥ 5 then
    .error (dayName r.preferred_day ++ " is a weekend. Date must be a weekday (Monday-Friday)".toList)
  else if r.preferred_day < today0 then
    .error ("Date cannot be in the past. Today is ".toList)
  else if r.preferred_day > dbEndDay then
    .error ("Date must be before 2025-10-27".toList)
  else if r.hour < 8 ∨ r.hour ≥ 17 then
    .error ("Time must be between 08:00 and 17:00".toList)
  else if ¬ (r.duration_minutes ∈ allowedDurations) then
    .error ("Duration must be 15, 30, 45, 60, 90, or 120 minutes".toList)
  else
    .ok ()

/-- api.py negotiate_meeting endpoint, core control flow: validation runs first
and on failure the structured error is returned before any calendar access or
slot search; on success find_available_slots dispatches on is_ai_agent_meeting. -/
def negotiate_meeting (pappu alice charlie : List CalendarBlock)
    (today0 dbEndDay : Int) (r : MeetingReq) : Except (List Char) (List Candidate) :=
  match validate_input today0 dbEndDay r with
  | .error e => .error e
  | .ok _ =>
    let preferred := r.preferred_day * 1440 + r.hour * 60 + r.minute
    if r.is_ai_agent_meeting then
      .ok (negotiate_with_ai_agent pappu alice charlie today0 dbEndDay preferred
        r.duration_minutes)
    else
      .ok (find_external_meeting_slots pappu today0 dbEndDay preferred
        r.duration_minutes)

end Api

namespace Pappu

/-- agent1 decision_engine.py DecisionEngine._check_time_conflicts; the engine's
priority_threshold is 5 at construction and is passed here explicitly. -/
def check_time_conflicts (priority_threshold : Int) (start_time : Int)
    (duration_minutes : Int) (blocks : List CalendarBlock) : List (List Char) :=
  let end_time := start_time + duration_minutes
  blocks.filterMap (fun b =>
    if start_time < b.end_time ∧ end_time > b.start_time then
      if b.block_type = .focus_time ∧ b.priority > priority_threshold then
        some (focusConflictMsg b.title)
      else if b.block_type = .busy ∧ b.is_moveable = false then
        some (fixedConflictMsg b.title)
      else if b.block_type = .flexible then
        some (flexibleConflictMsg b.title)
      else none
    else none)

/-- agent1 decision_engine.py DecisionEngine._determine_acceptability. -/
def determine_acceptability (personality : List Char) (conflicts : List (List Char)) : Bool :=
  if conflicts = [] then true
  else if personality = "collaborative".toList then decide (conflicts.length ≤ 1)
  else if personality = "strict".toList then decide (conflicts.length = 0)
  else if personality = "flexible".toList then decide (conflicts.length ≤ 2)
  else false

end Pappu

namespace Alice

/-- agent2 decision_engine.py AliceDecisionEngine._check_time_conflicts; takes
the interval end directly; the engine's priority_threshold is 7. -/
def check_time_conflicts (priority_threshold : Int) (start_time end_time : Int)
    (blocks : List CalendarBlock) : List (List Char) :=
  blocks.filterMap (fun b =>
    if start_time < b.end_time ∧ end_time > b.start_time then
      if b.block_type = .focus_time ∧ b.priority > priority_threshold then
        some (focusConflictMsg b.title)
      else if b.block_type = .busy ∧ b.is_moveable = false then
        some (fixedConflictMsg b.title)
      else if b.block_type = .flexible then
        some (flexibleConflictMsg b.title)
      else none
    else none)

/-- The test focus time in c.lower() used by Alice's acceptability rule. -/
def mentionsFocusTime (msg : List Char) : Bool :=
  pyContains ("focus time".toList) (pyLower msg)

/-- agent2 decision_engine.py AliceDecisionEngine._determine_acceptability. -/
def determine_acceptability (conflicts : List (List Char)) : Bool :=
  if conflicts = [] then true
  else if conflicts.any mentionsFocusTime then false
  else decide (conflicts.length ≤ 1)

end Alice

namespace TestPy

/-- test.py PersistentNegotiation.calculate_slot_quality (no preferred time:
time-of-day, round-time and weekday preferences only). -/
def calculate_slot_quality (t : Int) : Int :=
  (if 9 ≤ hourOf t ∧ hourOf t ≤ 11 then 10
   else if 14 ≤ hourOf t ∧ hourOf t ≤ 16 then 8
   else if 8 ≤ hourOf t ∧ hourOf t ≤ 9 then 6
   else if 16 ≤ hourOf t ∧ hourOf t ≤ 17 then 4
   else 0)
  + (if minuteOf t = 0 then 5 else if minuteOf t = 30 then 3 else 0)
  + (if weekdayOf t < 5 then 2 else 0)

/-- range(8, 18) of test.py find_available_time. -/
def hoursListT : List Int := [8, 9, 10, 11, 12, 13, 14, 15, 16, 17]

/-- One day of candidate starts in test.py find_available_time: quarter-hour
slots from 08:00 to 17:45, keeping a slot only if its end falls in an hour
before 18.  There is no weekend filter and no not-in-the-past filter. -/
def slotStartsOnDay (dur : Int) (d : Int) : List Int :=
  (hoursListT.flatMap (fun h => Api.minutesList.map (fun m => d * 1440 + h * 60 + m))).filter
    (fun s => decide (hourOf (s + dur) < 18))

/-- Day indices visited by find_available_time's while loop (current_date from
start_date to end_date in steps of one day, compared as full datetimes). -/
def searchDays (start_date end_date : Int) : List Int :=
  (List.range
    (if end_date < start_date then (0 : Int) else (end_date - start_date) / 1440 + 1).toNat).map
    (fun (k : Nat) => dayOf (start_date + (k : Int) * 1440))

/-- Conflict-free candidate start times examined by find_available_time. -/
def freeSlots (cal : List CalendarBlock) (dur : Int) (start_date end_date : Int) :
    List Int :=
  ((searchDays start_date end_date).flatMap (slotStartsOnDay dur)).filter
    (fun s => decide (check_time_conflict cal s (s + dur) = []))

/-- test.py PersistentNegotiation.find_available_time: score all free slots,
sort descending by quality (stable) and return the best one, if any. -/
def find_available_time (cal : List CalendarBlock) (dur : Int)
    (start_date end_date : Int) : Option Int :=
  (List.insertionSort (fun a b : Int × Int => b.2 ≤ a.2)
    ((freeSlots cal dur start_date end_date).map
      (fun s => (s, calculate_slot_quality s)))).head?.map Prod.fst

/-- The action a party returns in test.py alice_negotiates / bob_negotiates. -/
inductive NegoAction
  | accept (t : Int)
  | counter_proposal (t : Int)
  | reject
deriving DecidableEq

/-- test.py alice_negotiates and bob_negotiates (identical logic, the party is
identified by its calendar): on a conflict with the proposal, search the next
7 days for an alternative and counter-propose it if found, otherwise reject;
accept when the proposal is free. -/
def party_negotiates (cal : List CalendarBlock) (dur : Int) (proposed : Int) :
    NegoAction :=
  if check_time_conflict cal proposed (proposed + dur) = [] then .accept proposed
  else
    match find_available_time cal dur proposed (proposed + 7 * 1440) with
    | some t => .counter_proposal t
    | none => .reject

/-- Terminal outcome of test.py run_persistent_negotiation. -/
inductive NegoOutcome
  | success (t : Int)
  | rejectedBy (aliceTurn : Bool)
  | exhausted
deriving DecidableEq

/-- test.py run_persistent_negotiation: the for-loop over at most max_rounds
rounds, Alice responding first, roles alternating on each counter-proposal;
the fuel is the number of rounds remaining.  Scheduling on acceptance is
modelled as succeeding (the database write is an external collaborator). -/
def run_rounds (aliceCal bobCal : List CalendarBlock) (dur : Int) :
    Nat → Int → Bool → NegoOutcome
  | 0, _, _ => .exhausted
  | fuel + 1, proposal, aliceTurn =>
    match party_negotiates (if aliceTurn then aliceCal else bobCal) dur proposal with
    | .accept t => .success t
    | .reject => .rejectedBy aliceTurn
    | .counter_proposal t => run_rounds aliceCal bobCal dur fuel t (!aliceTurn)

/-- The number of negotiation rounds run_rounds actually performs. -/
def rounds_used (aliceCal bobCal : List CalendarBlock) (dur : Int) :
    Nat → Int → Bool → Nat
  | 0, _, _ => 0
  | fuel + 1, proposal, aliceTurn =>
    match party_negotiates (if aliceTurn then aliceCal else bobCal) dur proposal with
    | .counter_proposal t => 1 + rounds_used aliceCal bobCal dur fuel t (!aliceTurn)
    | _ => 1

/-- test.py PersistentNegotiation max_rounds. -/
def max_rounds : Nat := 20

/-- test.py PersistentNegotiation.run_persistent_negotiation with its initial
state: the preferred time proposed by Bob, Alice responding first. -/
def run_persistent_negotiation (aliceCal bobCal : List CalendarBlock) (dur : Int)
    (preferred : Int) : NegoOutcome :=
  run_rounds aliceCal bobCal dur max_rounds preferred true

end TestPy

/-! Helper lemmas shared by the claim theorems. -/

theorem mentionsFocusTime_focusMsg (title : List Char) :
    Alice.mentionsFocusTime (focusConflictMsg title) = true := by
  unfold Alice.mentionsFocusTime pyContains focusConflictMsg pyLower
  rw [List.map_append]
  have h : ("focus time".toList)
      <:+: ("Conflicts with high-priority focus time: ".toList.map Char.toLower) := by
    decide
  obtain ⟨u, v, huv⟩ := h
  refine decide_eq_true ⟨u, v ++ title.map Char.toLower, ?_⟩
  rw [← huv]
  simp

theorem check_time_conflict_eq_nil (cal : List CalendarBlock) (s e : Int) :
    check_time_conflict cal s e = []
      ↔ ∀ b ∈ cal, ¬ (b.start_time < e ∧ b.end_time > s) := by
  unfold check_time_conflict
  constructor
  · intro h b hb hover
    have hperm := List.perm_insertionSort
      (fun a b : CalendarBlock => b.priority ≤ a.priority)
      (cal.filter (fun b => decide (b.start_time < e ∧ b.end_time > s)))
    rw [h] at hperm
    have hnil := hperm.symm.eq_nil
    rw [List.filter_eq_nil_iff] at hnil
    exact hnil b hb (decide_eq_true hover)
  · intro h
    have hnil : cal.filter (fun b => decide (b.start_time < e ∧ b.end_time > s)) = [] := by
      rw [List.filter_eq_nil_iff]
      intro b hb hdec
      exact h b hb (of_decide_eq_true hdec)
    rw [hnil]
    rfl

/-- Decomposition of membership in the multi-agent search output: a returned
candidate comes from the enumerated starts and passed all three per-agent
conflict filters. -/
theorem negotiate_mem_decomp (pappu alice charlie : List CalendarBlock)
    (today0 dbEndDay : Int) (preferred dur : Int) (c : Api.Candidate)
    (hc : c ∈ Api.negotiate_with_ai_agent pappu alice charlie today0 dbEndDay preferred dur) :
    c.start_time ∈ Api.candidateStarts 5 today0 dbEndDay preferred dur
    ∧ c.end_time = c.start_time + dur
    ∧ Api.codeHasConflict 7 (check_time_conflict pappu c.start_time (c.start_time + dur)) = false
    ∧ Api.codeHasConflict 8 (check_time_conflict alice c.start_time (c.start_time + dur)) = false
    ∧ Api.codeHasConflict 6 (check_time_conflict charlie c.start_time (c.start_time + dur)) = false := by
  simp only [Api.negotiate_with_ai_agent, Api.rankByQuality] at hc
  have h1 := List.take_subset 3 _ hc
  rw [List.mem_insertionSort, List.mem_map] at h1
  obtain ⟨s, hs, rfl⟩ := h1
  rw [List.mem_filter, decide_eq_true_eq] at hs
  exact ⟨hs.1, rfl, by simpa using hs.2.1, by simpa using hs.2.2.1, by simpa using hs.2.2.2⟩

/-- Decomposition of membership in the external search output: a returned
candidate comes from the enumerated starts and has no overlapping block. -/
theorem external_mem_decomp (pappu : List CalendarBlock)
    (today0 dbEndDay : Int) (preferred dur : Int) (c : Api.Candidate)
    (hc : c ∈ Api.find_external_meeting_slots pappu today0 dbEndDay preferred dur) :
    c.start_time ∈ Api.candidateStarts 3 today0 dbEndDay preferred dur
    ∧ c.end_time = c.start_time + dur
    ∧ check_time_conflict pappu c.start_time (c.start_time + dur) = [] := by
  simp only [Api.find_external_meeting_slots, Api.rankByQuality] at hc
  have h1 := List.take_subset 3 _ hc
  rw [List.mem_insertionSort, List.mem_map] at h1
  obtain ⟨s, hs, rfl⟩ := h1
  rw [List.mem_filter, decide_eq_true_eq] at hs
  exact ⟨hs.1, rfl, hs.2⟩

theorem mem_businessDays_facts (a b d : Int) (h : d ∈ Api.businessDays a b) :
    d % 7 < 5 ∧ a ≤ d ∧ d ≤ b := by
  unfold Api.businessDays at h
  rw [List.mem_filter] at h
  obtain ⟨hmem, hw⟩ := h
  rw [List.mem_map] at hmem
  obtain ⟨i, hi, hd⟩ := hmem
  rw [List.mem_range] at hi
  rw [decide_eq_true_eq] at hw
  omega

theorem mem_slotStartsOnDay_facts (dur d : Int) (s : Int)
    (h : s ∈ Api.slotStartsOnDay dur d) :
    s / 1440 = d ∧ 480 ≤ s % 1440 ∧ s % 1440 ≤ 1005 ∧ hourOf (s + dur) < 17 := by
  unfold Api.slotStartsOnDay at h
  rw [List.mem_filter] at h
  obtain ⟨hmem, hend⟩ := h
  rw [decide_eq_true_eq] at hend
  rw [List.mem_flatMap] at hmem
  obtain ⟨hh, hmemh, hmm⟩ := hmem
  rw [List.mem_map] at hmm
  obtain ⟨m, hmemm, rfl⟩ := hmm
  simp only [Api.hoursList, List.mem_cons, List.not_mem_nil, or_false] at hmemh
  simp only [Api.minutesList, List.mem_cons, List.not_mem_nil, or_false] at hmemm
  refine ⟨?_, ?_, ?_, hend⟩ <;>
    rcases hmemh with rfl | rfl | rfl | rfl | rfl | rfl | rfl | rfl | rfl <;>
    rcases hmemm with rfl | rfl | rfl | rfl <;> omega

/-- Bounds satisfied by every enumerated start of the api.py searches: a
quarter-hour start between 08:00 and 16:45 on a Monday-to-Friday day, with the
slot end in an hour before 17. -/
theorem candidateStarts_bounds (horizonDays today0 dbEndDay : Int) (preferred dur : Int)
    (s : Int) (hs : s ∈ Api.candidateStarts horizonDays today0 dbEndDay preferred dur) :
    480 ≤ s % 1440 ∧ s % 1440 ≤ 1005 ∧ (s / 1440) % 7 < 5 ∧ hourOf (s + dur) < 17 := by
  simp only [Api.candidateStarts] at hs
  rw [List.mem_flatMap] at hs
  obtain ⟨d, hd, hslot⟩ := hs
  have h1 := mem_businessDays_facts _ _ _ hd
  have h2 := mem_slotStartsOnDay_facts dur d s hslot
  refine ⟨h2.2.1, h2.2.2.1, ?_, h2.2.2.2⟩
  rw [h2.1]
  exact h1.1

/-! C10 — bounds of the slot-quality scores. -/

/-- C10: for every pair of inputs the base slot-quality score is an integer
between 20 and 115 inclusive (distance bucket in [20, 100], time-of-day bonus
in [0, 10], round-time bonus in [0, 5]), and the 3-agent quality score is never
negative thanks to the clamp at 0. -/
theorem quality_score_bounds (slot_time preferred_time : Int)
    (pappu_conflicts alice_conflicts charlie_conflicts : List CalendarBlock) :
    20 ≤ Api.calculate_slot_quality slot_time preferred_time
    ∧ Api.calculate_slot_quality slot_time preferred_time ≤ 115
    ∧ 0 ≤ Api.calculate_3agent_slot_quality slot_time preferred_time
        pappu_conflicts alice_conflicts charlie_conflicts := by
  refine ⟨?_, ?_, ?_⟩
  · unfold Api.calculate_slot_quality Api.distanceScore Api.timeOfDayBonus Api.roundTimeBonus
    split_ifs <;> omega
  · unfold Api.calculate_slot_quality Api.distanceScore Api.timeOfDayBonus Api.roundTimeBonus
    split_ifs <;> omega
  · exact le_max_left 0 _

/-! C9 — monotonicity of the scores in temporal distance. -/

/-- C9: among candidates with identical time-of-day features (equal time-of-day
bonus and equal minute value) and, for the 3-agent score, identical per-agent
adjustments, the candidate at smaller absolute temporal distance from the
preferred time never scores lower, for the base and the 3-agent quality
functions alike. -/
theorem scoring_monotonic_in_distance (preferred s1 s2 : Int)
    (pc1 ac1 cc1 pc2 ac2 cc2 : List CalendarBlock)
    (htod : Api.timeOfDayBonus (hourOf s1) = Api.timeOfDayBonus (hourOf s2))
    (hmin : minuteOf s1 = minuteOf s2)
    (hadj : Api.agentAdjustments s1 pc1 ac1 cc1 = Api.agentAdjustments s2 pc2 ac2 cc2)
    (hdist : |s1 - preferred| ≤ |s2 - preferred|) :
    Api.calculate_slot_quality s2 preferred ≤ Api.calculate_slot_quality s1 preferred
    ∧ Api.calculate_3agent_slot_quality s2 preferred pc2 ac2 cc2
        ≤ Api.calculate_3agent_slot_quality s1 preferred pc1 ac1 cc1 := by
  have habs1 : 0 ≤ |s1 - preferred| := abs_nonneg _
  have habs2 : 0 ≤ |s2 - preferred| := abs_nonneg _
  have hbucket : Api.distanceScore |s2 - preferred| ≤ Api.distanceScore |s1 - preferred| := by
    unfold Api.distanceScore
    split_ifs <;> omega
  have hrnd : Api.roundTimeBonus (minuteOf s1) = Api.roundTimeBonus (minuteOf s2) := by
    rw [hmin]
  have hbase : Api.calculate_slot_quality s2 preferred
      ≤ Api.calculate_slot_quality s1 preferred := by
    unfold Api.calculate_slot_quality
    exact add_le_add (add_le_add hbucket htod.ge) hrnd.ge
  refine ⟨hbase, ?_⟩
  unfold Api.calculate_3agent_slot_quality
  exact max_le_max (le_refl 0) (add_le_add hbase hadj.ge)

/-! C2 — acceptability rule of the Pappu decision engine. -/

/-- C2 (amended): the decision engine's acceptability rule counts hard and soft
conflict messages together, without consulting the hard/soft distinction: for
the three named profiles a proposal is acceptable iff the total number of
conflict messages is at most the tolerance — 0 for strict, 1 for collaborative,
2 for flexible (so one hard conflict alone is accepted by collaborative and
flexible, contrary to the claim as stated). -/
theorem acceptability_counts_all_conflicts (threshold start_time dur : Int)
    (blocks : List CalendarBlock) :
    (Pappu.determine_acceptability ("collaborative".toList)
        (Pappu.check_time_conflicts threshold start_time dur blocks)
      = decide ((Pappu.check_time_conflicts threshold start_time dur blocks).length ≤ 1))
    ∧ (Pappu.determine_acceptability ("strict".toList)
        (Pappu.check_time_conflicts threshold start_time dur blocks)
      = decide ((Pappu.check_time_conflicts threshold start_time dur blocks).length = 0))
    ∧ (Pappu.determine_acceptability ("flexible".toList)
        (Pappu.check_time_conflicts threshold start_time dur blocks)
      = decide ((Pappu.check_time_conflicts threshold start_time dur blocks).length ≤ 2)) := by
  set c := Pappu.check_time_conflicts threshold start_time dur blocks with hc
  rcases eq_or_ne c [] with h | h
  · rw [h]
    refine ⟨?_, ?_, ?_⟩ <;> decide
  · unfold Pappu.determine_acceptability
    refine ⟨?_, ?_, ?_⟩
    · rw [if_neg h, if_pos rfl]
    · rw [if_neg h, if_neg (by decide), if_pos rfl]
    · rw [if_neg h, if_neg (by decide), if_neg (by decide), if_pos rfl]

/-- C2 is false as stated: with the collaborative profile, a proposal carrying a
single hard conflict — an overlapping non-moveable busy block, which the spec's
classifier reports as hard for any threshold — is accepted. -/
theorem collaborative_accepts_hard_conflict :
    Pappu.determine_acceptability ("collaborative".toList)
      (Pappu.check_time_conflicts 5 1000 60
        [{ title := "sync".toList, start_time := 990, end_time := 1100,
           block_type := .busy, priority := 9, is_moveable := false }]) = true
    ∧ specHardConflict 5
        [{ title := "sync".toList, start_time := 990, end_time := 1100,
           block_type := .busy, priority := 9, is_moveable := false }] 1000 1060 = true := by
  decide

/-! C3 — Alice's treatment of focus-time overlaps. -/

/-- C3 (amended): for Alice (priority threshold 7) an overlap with a focus_time
block is a hard conflict and the proposal is rejected whenever the block's
priority exceeds the threshold — regardless of the interval's length; overlaps
with focus_time blocks of priority at or below the threshold yield no conflict
entry at all and by themselves cannot cause rejection (counterexample). -/
theorem alice_rejects_high_priority_focus_overlap
    (start_time end_time : Int) (blocks : List CalendarBlock) (b : CalendarBlock)
    (hb : b ∈ blocks) (h1 : start_time < b.end_time) (h2 : end_time > b.start_time)
    (hk : b.block_type = .focus_time) (hp : b.priority > 7) :
    Alice.determine_acceptability (Alice.check_time_conflicts 7 start_time end_time blocks)
      = false := by
  have hmem : focusConflictMsg b.title
      ∈ Alice.check_time_conflicts 7 start_time end_time blocks := by
    unfold Alice.check_time_conflicts
    rw [List.mem_filterMap]
    exact ⟨b, hb, by rw [if_pos ⟨h1, h2⟩, if_pos ⟨hk, hp⟩]⟩
  unfold Alice.determine_acceptability
  rw [if_neg (List.ne_nil_of_mem hmem),
    if_pos (List.any_eq_true.mpr ⟨_, hmem, mentionsFocusTime_focusMsg b.title⟩)]

theorem alice_rejects_high_priority_focus_overlap_witness :
    Alice.determine_acceptability
      (Alice.check_time_conflicts 7 1000 1060
        [{ title := "Deep Work".toList, start_time := 990, end_time := 1100,
           block_type := .focus_time, priority := 9, is_moveable := true }]) = false :=
  alice_rejects_high_priority_focus_overlap 1000 1060 _
    { title := "Deep Work".toList, start_time := 990, end_time := 1100,
      block_type := .focus_time, priority := 9, is_moveable := true }
    (by decide) (by decide) (by decide) (by decide) (by decide)

/-- C3 is false as stated: a candidate overlapping one of Alice's focus_time
blocks whose priority does not exceed her threshold 7 produces no conflict and
is accepted, so focus overlaps are not rejected unconditionally. -/
theorem alice_accepts_threshold_focus_overlap :
    ((1000 : Int) < 1100 ∧ (1060 : Int) > 990)
    ∧ Alice.check_time_conflicts 7 1000 1060
        [{ title := "Deep Work".toList, start_time := 990, end_time := 1100,
           block_type := .focus_time, priority := 7, is_moveable := true }] = []
    ∧ Alice.determine_acceptability
        (Alice.check_time_conflicts 7 1000 1060
          [{ title := "Deep Work".toList, start_time := 990, end_time := 1100,
             block_type := .focus_time, priority := 7, is_moveable := true }]) = true := by
  decide

/-! C7 — input validation rejects before any search. -/

/-- C7: a request whose preferred date falls on a weekend or outside the valid
date range, whose time lies outside 08:00 to 17:00, or whose duration is not
one of the allowed values is rejected by validation with a nonempty
human-readable reason, and no slot search or calendar query runs: the endpoint
result is the validation error and is independent of all calendar contents. -/
theorem validation_rejects_before_search (pappu alice charlie : List CalendarBlock)
    (today0 dbEndDay : Int) (r : Api.MeetingReq)
    (hbad : (r.preferred_day % 7) ≥ 5 ∨ r.preferred_day < today0 ∨ r.preferred_day > dbEndDay
      ∨ r.hour < 8 ∨ r.hour ≥ 17 ∨ ¬ (r.duration_minutes ∈ Api.allowedDurations)) :
    ∃ e, Api.negotiate_meeting pappu alice charlie today0 dbEndDay r = .error e
      ∧ e ≠ []
      ∧ ∀ pappu2 alice2 charlie2,
          Api.negotiate_meeting pappu2 alice2 charlie2 today0 dbEndDay r = .error e := by
  have hval : ∃ e, Api.validate_input today0 dbEndDay r = .error e ∧ e ≠ [] := by
    unfold Api.validate_input
    by_cases h1 : (r.preferred_day % 7) ≥ 5
    · rw [if_pos h1]
      refine ⟨_, rfl, ?_⟩
      intro hnil
      rw [List.append_eq_nil] at hnil
      exact absurd hnil.2 (by decide)
    · rw [if_neg h1]
      by_cases h2 : r.preferred_day < today0
      · rw [if_pos h2]
        exact ⟨_, rfl, by decide⟩
      · rw [if_neg h2]
        by_cases h3 : r.preferred_day > dbEndDay
        · rw [if_pos h3]
          exact ⟨_, rfl, by decide⟩
        · rw [if_neg h3]
          by_cases h4 : r.hour < 8 ∨ r.hour ≥ 17
          · rw [if_pos h4]
            exact ⟨_, rfl, by decide⟩
          · rw [if_neg h4]
            have h5 : ¬ (r.duration_minutes ∈ Api.allowedDurations) := by
              rcases hbad with h | h | h | h | h | h
              · exact absurd h h1
              · exact absurd h h2
              · exact absurd h h3
              · exact absurd (Or.inl h) h4
              · exact absurd (Or.inr h) h4
              · exact h
            rw [if_pos h5]
            exact ⟨_, rfl, by decide⟩
  obtain ⟨e, he, hne⟩ := hval
  refine ⟨e, ?_, hne, fun pappu2 alice2 charlie2 => ?_⟩
  · unfold Api.negotiate_meeting
    rw [he]
  · unfold Api.negotiate_meeting
    rw [he]

/-- A Saturday request (day 285 is Saturday 2025-10-18). -/
def weekendReq : Api.MeetingReq :=
  { preferred_day := 285, hour := 10, minute := 0, duration_minutes := 30,
    is_ai_agent_meeting := true }

theorem validation_rejects_before_search_witness :
    ∃ e, Api.negotiate_meeting [] [] [] 280 294 weekendReq = .error e
      ∧ e ≠ []
      ∧ ∀ pappu2 alice2 charlie2,
          Api.negotiate_meeting pappu2 alice2 charlie2 280 294 weekendReq = .error e :=
  validation_rejects_before_search [] [] [] 280 294 weekendReq (by decide)

/-! C6 — round bound and termination of the negotiation loop. -/

theorem rounds_used_le (aliceCal bobCal : List CalendarBlock) (dur : Int) :
    ∀ (fuel : Nat) (p : Int) (turn : Bool),
      TestPy.rounds_used aliceCal bobCal dur fuel p turn ≤ fuel := by
  intro fuel
  induction fuel with
  | zero =>
    intro p turn
    simp [TestPy.rounds_used]
  | succ n ih =>
    intro p turn
    cases h : TestPy.party_negotiates (if turn then aliceCal else bobCal) dur p with
    | accept t => simp [TestPy.rounds_used, h]
    | reject => simp [TestPy.rounds_used, h]
    | counter_proposal t =>
      simp only [TestPy.rounds_used, h]
      have := ih t (!turn)
      omega

theorem run_rounds_exhausted_rounds (aliceCal bobCal : List CalendarBlock) (dur : Int) :
    ∀ (fuel : Nat) (p : Int) (turn : Bool),
      TestPy.run_rounds aliceCal bobCal dur fuel p turn = .exhausted →
      TestPy.rounds_used aliceCal bobCal dur fuel p turn = fuel := by
  intro fuel
  induction fuel with
  | zero =>
    intro p turn _
    simp [TestPy.rounds_used]
  | succ n ih =>
    intro p turn hrun
    cases h : TestPy.party_negotiates (if turn then aliceCal else bobCal) dur p with
    | accept t => simp [TestPy.run_rounds, h] at hrun
    | reject => simp [TestPy.run_rounds, h] at hrun
    | counter_proposal t =>
      simp only [TestPy.run_rounds, h] at hrun
      simp only [TestPy.rounds_used, h]
      have := ih t (!turn) hrun
      omega

/-- C6: the negotiation loop performs at most max_rounds (20) rounds and always
terminates with a single terminal outcome (an element of NegoOutcome, so no
transition can follow it); exhaustion only happens after the full budget of 20
rounds has been consumed without an acceptance or rejection; and within the
budget the loop ends at the first round on which the acting party accepts or
rejects. -/
theorem negotiation_round_bound (aliceCal bobCal : List CalendarBlock) (dur : Int)
    (preferred : Int) :
    TestPy.rounds_used aliceCal bobCal dur TestPy.max_rounds preferred true ≤ TestPy.max_rounds
    ∧ (TestPy.run_persistent_negotiation aliceCal bobCal dur preferred = .exhausted →
        TestPy.rounds_used aliceCal bobCal dur TestPy.max_rounds preferred true
          = TestPy.max_rounds)
    ∧ (∀ (fuel : Nat) (p : Int) (turn : Bool) (t : Int),
        TestPy.party_negotiates (if turn then aliceCal else bobCal) dur p = .accept t →
        TestPy.run_rounds aliceCal bobCal dur (fuel + 1) p turn = .success t
        ∧ TestPy.rounds_used aliceCal bobCal dur (fuel + 1) p turn = 1)
    ∧ (∀ (fuel : Nat) (p : Int) (turn : Bool),
        TestPy.party_negotiates (if turn then aliceCal else bobCal) dur p = .reject →
        TestPy.run_rounds aliceCal bobCal dur (fuel + 1) p turn = .rejectedBy turn
        ∧ TestPy.rounds_used aliceCal bobCal dur (fuel + 1) p turn = 1) := by
  refine ⟨rounds_used_le aliceCal bobCal dur TestPy.max_rounds preferred true,
    fun h => run_rounds_exhausted_rounds aliceCal bobCal dur TestPy.max_rounds preferred true h,
    fun fuel p turn t h => ⟨?_, ?_⟩, fun fuel p turn h => ⟨?_, ?_⟩⟩ <;>
  simp [TestPy.run_rounds, TestPy.rounds_used, h]

theorem negotiation_round_bound_witness :
    TestPy.rounds_used [] [] 30 TestPy.max_rounds 403740 true ≤ TestPy.max_rounds
    ∧ TestPy.run_rounds [] [] 30 1 403740 true = .success 403740
    ∧ TestPy.rounds_used [] [] 30 1 403740 true = 1 :=
  ⟨(negotiation_round_bound [] [] 30 403740).1,
   ((negotiation_round_bound [] [] 30 403740).2.2.1 0 403740 true 403740 (by decide)).1,
   ((negotiation_round_bound [] [] 30 403740).2.2.1 0 403740 true 403740 (by decide)).2⟩

/-! C8 — responder behaviour on a conflicting proposal. -/

theorem find_available_time_some_mem (cal : List CalendarBlock) (dur sd ed t : Int)
    (h : TestPy.find_available_time cal dur sd ed = some t) :
    t ∈ TestPy.freeSlots cal dur sd ed := by
  unfold TestPy.find_available_time at h
  cases hs : List.insertionSort (fun a b : Int × Int => b.2 ≤ a.2)
      ((TestPy.freeSlots cal dur sd ed).map
        (fun s => (s, TestPy.calculate_slot_quality s))) with
  | nil =>
    rw [hs] at h
    simp at h
  | cons p ps =>
    rw [hs] at h
    have hp : p ∈ List.insertionSort (fun a b : Int × Int => b.2 ≤ a.2)
        ((TestPy.freeSlots cal dur sd ed).map
          (fun s => (s, TestPy.calculate_slot_quality s))) := by
      rw [hs]
      exact List.mem_cons_self p ps
    rw [List.mem_insertionSort, List.mem_map] at hp
    obtain ⟨s, hsmem, rfl⟩ := hp
    have hst : s = t := by simpa using h
    rwa [← hst]

theorem find_available_time_of_ne_nil (cal : List CalendarBlock) (dur sd ed : Int)
    (h : TestPy.freeSlots cal dur sd ed ≠ []) :
    ∃ t, TestPy.find_available_time cal dur sd ed = some t := by
  unfold TestPy.find_available_time
  cases hs : List.insertionSort (fun a b : Int × Int => b.2 ≤ a.2)
      ((TestPy.freeSlots cal dur sd ed).map
        (fun s => (s, TestPy.calculate_slot_quality s))) with
  | nil =>
    have hperm := List.perm_insertionSort (fun a b : Int × Int => b.2 ≤ a.2)
      ((TestPy.freeSlots cal dur sd ed).map
        (fun s => (s, TestPy.calculate_slot_quality s)))
    rw [hs] at hperm
    have hmapnil := hperm.symm.eq_nil
    rw [List.map_eq_nil_iff] at hmapnil
    exact absurd hmapnil h
  | cons p ps =>
    exact ⟨p.1, rfl⟩

/-- C8 (amended): when the proposal conflicts with the responder's calendar, the
responder searches the days touched by the 7-day look-ahead window from the
proposal — each searched day in full from 08:00, so candidates earlier than the
proposal on its first day are included too (see the counterexample).  If some
conflict-free candidate exists the loop moves to a counter-proposal of one of
those candidates, with the proposer and responder roles swapped and one round
consumed; if none exists the responder rejects. -/
theorem responder_counter_or_reject (aliceCal bobCal : List CalendarBlock)
    (dur p : Int) (turn : Bool) (fuel : Nat)
    (hconf : check_time_conflict (if turn then aliceCal else bobCal) p (p + dur) ≠ []) :
    (TestPy.freeSlots (if turn then aliceCal else bobCal) dur p (p + 7 * 1440) = [] →
       TestPy.party_negotiates (if turn then aliceCal else bobCal) dur p = .reject)
    ∧ (TestPy.freeSlots (if turn then aliceCal else bobCal) dur p (p + 7 * 1440) ≠ [] →
       ∃ t, TestPy.party_negotiates (if turn then aliceCal else bobCal) dur p
             = .counter_proposal t
         ∧ t ∈ TestPy.freeSlots (if turn then aliceCal else bobCal) dur p (p + 7 * 1440)
         ∧ TestPy.run_rounds aliceCal bobCal dur (fuel + 1) p turn
             = TestPy.run_rounds aliceCal bobCal dur fuel t (!turn)
         ∧ TestPy.rounds_used aliceCal bobCal dur (fuel + 1) p turn
             = 1 + TestPy.rounds_used aliceCal bobCal dur fuel t (!turn)) := by
  constructor
  · intro hempty
    unfold TestPy.party_negotiates
    rw [if_neg hconf]
    have hnone : TestPy.find_available_time (if turn then aliceCal else bobCal) dur p
        (p + 7 * 1440) = none := by
      unfold TestPy.find_available_time
      rw [hempty]
      rfl
    rw [hnone]
  · intro hne
    obtain ⟨t, ht⟩ := find_available_time_of_ne_nil (if turn then aliceCal else bobCal)
      dur p (p + 7 * 1440) hne
    have hparty : TestPy.party_negotiates (if turn then aliceCal else bobCal) dur p
        = .counter_proposal t := by
      unfold TestPy.party_negotiates
      rw [if_neg hconf, ht]
    refine ⟨t, hparty,
      find_available_time_some_mem (if turn then aliceCal else bobCal) dur p _ t ht, ?_, ?_⟩
    · simp [TestPy.run_rounds, hparty]
    · simp [TestPy.rounds_used, hparty]

theorem scoring_monotonic_in_distance_witness :
    Api.calculate_slot_quality 120 0 ≤ Api.calculate_slot_quality 60 0
    ∧ Api.calculate_3agent_slot_quality 120 0 [] [] []
        ≤ Api.calculate_3agent_slot_quality 60 0 [] [] [] :=
  scoring_monotonic_in_distance 0 60 120 [] [] [] [] [] []
    (by decide) (by decide) (by decide) (by decide)

/-! C1 — conflict filtering of the search outputs. -/

theorem specHard_false_of_no_overlap (threshold : Int) (cal : List CalendarBlock)
    (s e : Int) (h : check_time_conflict cal s e = []) :
    specHardConflict threshold cal s e = false := by
  rw [check_time_conflict_eq_nil] at h
  cases hany : specHardConflict threshold cal s e
  · rfl
  · exfalso
    unfold specHardConflict at hany
    rw [List.any_eq_true] at hany
    obtain ⟨b, hb, hp⟩ := hany
    rw [decide_eq_true_eq] at hp
    exact h b hb hp.1

/-- C1 (amended): every slot returned by the multi-party search has, for each
party, no conflicting block that is both non-moveable and of priority at least
the party's bound (7 for Pappu, 8 for Alice, 6 for Charlie) — this is the only
filter the code applies, so spec-hard conflicts below the bound can be
returned (see the counterexample); every slot returned by the single-party
external search has no overlapping block at all, hence no hard conflict in the
spec classifier's sense. -/
theorem search_output_conflict_filters (pappu alice charlie : List CalendarBlock)
    (today0 dbEndDay preferred dur : Int) :
    (∀ c ∈ Api.negotiate_with_ai_agent pappu alice charlie today0 dbEndDay preferred dur,
       Api.codeHasConflict 7 (check_time_conflict pappu c.start_time c.end_time) = false
       ∧ Api.codeHasConflict 8 (check_time_conflict alice c.start_time c.end_time) = false
       ∧ Api.codeHasConflict 6 (check_time_conflict charlie c.start_time c.end_time) = false)
    ∧ (∀ c ∈ Api.find_external_meeting_slots pappu today0 dbEndDay preferred dur,
       check_time_conflict pappu c.start_time c.end_time = []
       ∧ specHardConflict 7 pappu c.start_time c.end_time = false) := by
  constructor
  · intro c hc
    obtain ⟨-, hend, h7, h8, h6⟩ := negotiate_mem_decomp _ _ _ _ _ _ _ c hc
    rw [hend]
    exact ⟨h7, h8, h6⟩
  · intro c hc
    obtain ⟨-, hend, hnil⟩ := external_mem_decomp _ _ _ _ _ c hc
    rw [hend]
    exact ⟨hnil, specHard_false_of_no_overlap 7 pappu _ _ hnil⟩

/-! C4 — presence and rank of an exact preferred-slot match. -/

/-- C4 (amended): a preferred slot that is grid-aligned, on a business day
inside the clipped search window, within business hours (slot end before hour
17) is always among the enumerated candidate starts of the multi-agent search,
and its temporal-distance component is the maximal bucket (100); but it need
not be ranked first, and can even be pushed out of the returned top 3 by slots
whose time-of-day, round-time and per-agent bonuses exceed its total (see the
counterexample). -/
theorem preferred_slot_enumerated (today0 dbEndDay preferred dur : Int)
    (htoday : today0 ≤ preferred / 1440)
    (hdb : preferred / 1440 ≤ dbEndDay)
    (hweekday : (preferred / 1440) % 7 < 5)
    (hhour : 8 ≤ (preferred % 1440) / 60 ∧ (preferred % 1440) / 60 ≤ 16)
    (hminute : preferred % 60 = 0 ∨ preferred % 60 = 15 ∨ preferred % 60 = 30
      ∨ preferred % 60 = 45)
    (hend : hourOf (preferred + dur) < 17) :
    preferred ∈ Api.candidateStarts 5 today0 dbEndDay preferred dur
    ∧ Api.distanceScore |preferred - preferred| = 100 := by
  refine ⟨?_, by simp [Api.distanceScore]⟩
  simp only [Api.candidateStarts]
  rw [List.mem_flatMap]
  refine ⟨preferred / 1440, ?_, ?_⟩
  · unfold Api.businessDays
    rw [List.mem_filter]
    refine ⟨?_, decide_eq_true hweekday⟩
    rw [List.mem_map]
    refine ⟨(preferred / 1440 - (max (preferred - 5 * 1440) (today0 * 1440)) / 1440).toNat,
      ?_, ?_⟩
    · rw [List.mem_range]
      omega
    · omega
  · unfold Api.slotStartsOnDay
    rw [List.mem_filter]
    refine ⟨?_, decide_eq_true hend⟩
    rw [List.mem_flatMap]
    refine ⟨(preferred % 1440) / 60, ?_, ?_⟩
    · simp only [Api.hoursList, List.mem_cons, List.not_mem_nil, or_false]
      omega
    · rw [List.mem_map]
      refine ⟨preferred % 60, ?_, ?_⟩
      · simp only [Api.minutesList, List.mem_cons, List.not_mem_nil, or_false]
        omega
      · omega

/-! C5 — business-hour and business-day bounds of produced slots. -/

theorem mem_testpy_slot_facts (cal : List CalendarBlock) (dur sd ed t : Int)
    (h : t ∈ TestPy.freeSlots cal dur sd ed) :
    480 ≤ t % 1440 ∧ t % 1440 ≤ 1065 ∧ hourOf (t + dur) < 18 := by
  unfold TestPy.freeSlots at h
  rw [List.mem_filter] at h
  obtain ⟨hmem, -⟩ := h
  rw [List.mem_flatMap] at hmem
  obtain ⟨d, -, hslot⟩ := hmem
  unfold TestPy.slotStartsOnDay at hslot
  rw [List.mem_filter] at hslot
  obtain ⟨hmem2, hend⟩ := hslot
  rw [decide_eq_true_eq] at hend
  rw [List.mem_flatMap] at hmem2
  obtain ⟨hh, hmemh, hmm⟩ := hmem2
  rw [List.mem_map] at hmm
  obtain ⟨m, hmemm, rfl⟩ := hmm
  simp only [TestPy.hoursListT, List.mem_cons, List.not_mem_nil, or_false] at hmemh
  simp only [Api.minutesList, List.mem_cons, List.not_mem_nil, or_false] at hmemm
  refine ⟨?_, ?_, hend⟩ <;>
    rcases hmemh with rfl | rfl | rfl | rfl | rfl | rfl | rfl | rfl | rfl | rfl <;>
    rcases hmemm with rfl | rfl | rfl | rfl <;> omega

/-- C5 (amended): the slots of the two api.py searches lie entirely within the
configured business window — start between 08:00 and 16:45 on a Monday-to-Friday
day, end in hour 16 or earlier of the same day (for the validated durations of
at most 120 minutes).  The counter-proposal slots produced inside the
persistent negotiation (test.py find_available_time) satisfy only the weaker
bounds 08:00 to 17:45 for the start with the end before hour 18, on any day of
the week — they can start at or after 17:00 and fall on a weekend (see the
counterexample). -/
theorem slot_bounds_by_component (pappu alice charlie cal : List CalendarBlock)
    (today0 dbEndDay preferred dur sd ed : Int) (hdur0 : 0 ≤ dur) (hdur : dur ≤ 120) :
    (∀ c ∈ Api.negotiate_with_ai_agent pappu alice charlie today0 dbEndDay preferred dur,
       480 ≤ c.start_time % 1440 ∧ c.start_time % 1440 ≤ 1005
       ∧ weekdayOf c.start_time < 5
       ∧ c.end_time / 1440 = c.start_time / 1440 ∧ c.end_time % 1440 < 1020)
    ∧ (∀ c ∈ Api.find_external_meeting_slots pappu today0 dbEndDay preferred dur,
       480 ≤ c.start_time % 1440 ∧ c.start_time % 1440 ≤ 1005
       ∧ weekdayOf c.start_time < 5
       ∧ c.end_time / 1440 = c.start_time / 1440 ∧ c.end_time % 1440 < 1020)
    ∧ (∀ t, TestPy.find_available_time cal dur sd ed = some t →
       480 ≤ t % 1440 ∧ t % 1440 ≤ 1065 ∧ hourOf (t + dur) < 18) := by
  refine ⟨?_, ?_, ?_⟩
  · intro c hc
    obtain ⟨hmem, hend, -, -, -⟩ := negotiate_mem_decomp _ _ _ _ _ _ _ c hc
    have hb := candidateStarts_bounds 5 today0 dbEndDay preferred dur c.start_time hmem
    unfold hourOf at hb
    unfold weekdayOf
    rw [hend]
    omega
  · intro c hc
    obtain ⟨hmem, hend, -⟩ := external_mem_decomp _ _ _ _ _ c hc
    have hb := candidateStarts_bounds 3 today0 dbEndDay preferred dur c.start_time hmem
    unfold hourOf at hb
    unfold weekdayOf
    rw [hend]
    omega
  · intro t ht
    exact mem_testpy_slot_facts cal dur sd ed t
      (find_available_time_some_mem cal dur sd ed t ht)

theorem preferred_slot_enumerated_witness :
    (403800 : Int) ∈ Api.candidateStarts 5 280 294 403800 30
    ∧ Api.distanceScore |(403800 : Int) - 403800| = 100 :=
  preferred_slot_enumerated 280 294 403800 30 (by decide) (by decide) (by decide)
    (by decide) (by decide) (by decide)

theorem search_output_conflict_filters_witness :
    (Api.codeHasConflict 7 (check_time_conflict [] 403800 403830) = false
     ∧ Api.codeHasConflict 8 (check_time_conflict [] 403800 403830) = false
     ∧ Api.codeHasConflict 6 (check_time_conflict [] 403800 403830) = false)
    ∧ (check_time_conflict [] 403800 403830 = []
       ∧ specHardConflict 7 [] 403800 403830 = false) :=
  ⟨(search_output_conflict_filters [] [] [] 280 294 403800 30).1
      { start_time := 403800, end_time := 403830, quality_score := 137 } (by decide),
   (search_output_conflict_filters [] [] [] 280 294 403800 30).2
      { start_time := 403800, end_time := 403830, quality_score := 115 } (by decide)⟩

/-- A non-moveable busy block of priority 5 covering Pappu's whole search window
(Monday 2025-10-13 00:00 to Sunday 2025-10-19 00:00 in day-index minutes). -/
def pappuLowPriorityBusy : CalendarBlock :=
  { title := "standup".toList, start_time := 403200, end_time := 411840,
    block_type := .busy, priority := 5, is_moveable := false }

/-- C1 is false as stated: with Pappu holding a non-moveable busy block of
priority 5 over the whole window — a hard conflict in the spec classifier's
sense for every slot — the multi-party search still returns three slots, every
one of them overlapping that block, because the code's filter only reacts to
non-moveable conflicts of priority at least 7. -/
theorem multi_search_admits_spec_hard_conflict :
    (Api.negotiate_with_ai_agent [pappuLowPriorityBusy] [] [] 280 294 403800 30).length = 3
    ∧ (Api.negotiate_with_ai_agent [pappuLowPriorityBusy] [] [] 280 294 403800 30).all
        (fun c => specHardConflict 7 [pappuLowPriorityBusy] c.start_time c.end_time)
      = true := by
  decide

/-- C4 is false as stated: with all calendars empty and the preferred time
Monday 2025-10-13 12:15 (a conflict-free, grid-aligned, in-window business-hour
slot), the top-ranked slot of the multi-agent search starts at 11:30, not at
the preferred time; the preferred slot is not even among the returned top 3. -/
theorem exact_match_not_top1 :
    ((280 * 1440 + 735) / 1440) % 7 < 5
    ∧ check_time_conflict [] (280 * 1440 + 735) (280 * 1440 + 765) = []
    ∧ ((Api.negotiate_with_ai_agent [] [] [] 280 294 (280 * 1440 + 735) 30).map
        (fun c => c.start_time)).head? = some (280 * 1440 + 690)
    ∧ ¬ ((280 * 1440 + 735) ∈ (Api.negotiate_with_ai_agent [] [] [] 280 294
        (280 * 1440 + 735) 30).map (fun c => c.start_time)) := by
  decide

theorem slot_bounds_by_component_witness :
    (480 ≤ (403800 : Int) % 1440 ∧ (403800 : Int) % 1440 ≤ 1005
      ∧ weekdayOf 403800 < 5
      ∧ (403830 : Int) / 1440 = (403800 : Int) / 1440 ∧ (403830 : Int) % 1440 < 1020)
    ∧ (480 ≤ (403800 : Int) % 1440 ∧ (403800 : Int) % 1440 ≤ 1005
      ∧ weekdayOf 403800 < 5
      ∧ (403830 : Int) / 1440 = (403800 : Int) / 1440 ∧ (403830 : Int) % 1440 < 1020)
    ∧ (480 ≤ (403740 : Int) % 1440 ∧ (403740 : Int) % 1440 ≤ 1065
      ∧ hourOf (403740 + 30) < 18) :=
  ⟨(slot_bounds_by_component [] [] [] [] 280 294 403800 30 403740 403740
      (by decide) (by decide)).1
      { start_time := 403800, end_time := 403830, quality_score := 137 } (by decide),
   (slot_bounds_by_component [] [] [] [] 280 294 403800 30 403740 403740
      (by decide) (by decide)).2.1
      { start_time := 403800, end_time := 403830, quality_score := 115 } (by decide),
   (slot_bounds_by_component [] [] [] [] 280 294 403800 30 403740 403740
      (by decide) (by decide)).2.2 403740 (by decide)⟩

/-- A calendar that keeps Saturday 2025-10-18 17:30 to 17:45 as the only free
quarter-hour in the persistent negotiation's look-ahead: one block until
Saturday 17:30 and one from Saturday 18:00 to the end of the window. -/
def aliceSaturdayCal : List CalendarBlock :=
  [{ title := "before".toList, start_time := 410400, end_time := 411450,
     block_type := .busy, priority := 8, is_moveable := false },
   { title := "after".toList, start_time := 411480, end_time := 423360,
     block_type := .busy, priority := 8, is_moveable := false }]

/-- C5 is false as stated: a counter-proposal produced during the persistent
negotiation can start at 17:30 — outside the 08:00 to 17:00 business window —
and on a Saturday, because test.py enumerates hours 8 to 17 inclusive and never
filters weekends. -/
theorem counter_proposal_outside_business_window :
    TestPy.party_negotiates aliceSaturdayCal 15 (285 * 1440 + 600)
      = .counter_proposal (285 * 1440 + 1050)
    ∧ hourOf (285 * 1440 + 1050) ≥ 17
    ∧ weekdayOf (285 * 1440 + 1050) ≥ 5 := by
  decide

/-- A non-moveable block occupying Tuesday 2025-10-14 10:00 through the whole
7-day look-ahead of a Tuesday 14:00 proposal. -/
def lookaheadWall : CalendarBlock :=
  { title := "wall".toList, start_time := 405240, end_time := 416160,
    block_type := .busy, priority := 8, is_moveable := false }

/-- C8 is false as stated: with the proposal Tuesday 14:00 conflicting and every
slot at or after the proposal inside the 7-day look-ahead also conflicting, the
responder does not reject — it counter-proposes Tuesday 09:00, earlier than the
proposal, because the search re-enumerates the proposal's own day from 08:00. -/
theorem responder_counters_despite_empty_lookahead :
    ((TestPy.freeSlots [lookaheadWall] 30 (281 * 1440 + 840)
        (281 * 1440 + 840 + 7 * 1440)).filter
      (fun s => decide (281 * 1440 + 840 ≤ s)) = [])
    ∧ TestPy.party_negotiates [lookaheadWall] 30 (281 * 1440 + 840)
        = .counter_proposal (281 * 1440 + 540) := by
  decide

/-- A busy block over Monday 2025-10-13 09:00 to 10:00. -/
def respBusyBlock : CalendarBlock :=
  { title := "m".toList, start_time := 403740, end_time := 403800,
    block_type := .busy, priority := 8, is_moveable := false }

theorem responder_counter_or_reject_witness :
    ∃ t, TestPy.party_negotiates [respBusyBlock] 30 403740 = .counter_proposal t
      ∧ t ∈ TestPy.freeSlots [respBusyBlock] 30 403740 (403740 + 7 * 1440)
      ∧ TestPy.run_rounds [respBusyBlock] [] 30 (0 + 1) 403740 true
          = TestPy.run_rounds [respBusyBlock] [] 30 0 t (!true)
      ∧ TestPy.rounds_used [respBusyBlock] [] 30 (0 + 1) 403740 true
          = 1 + TestPy.rounds_used [respBusyBlock] [] 30 0 t (!true) :=
  (responder_counter_or_reject [respBusyBlock] [] 30 403740 true 0 (by decide)).2
    (by decide)

end Delagent
